import Mathlib

/-!
Verification of the cluster-support bot's core logic (cluster-support-bot.py):
the note-resolution scan (`get_notes`), the summary replacement flow
(`handle_set_summary`), the comment flow (`handle_comment`), the event
deduplication window, the comment counter, and the message dispatch layer.

The ticketing backend is modelled as a list of notes returned in insertion
order: `post_account_note` appends a fresh note, `delete_account_note`
removes the note with the given id.  Strings are Lean `String`s; the string
operations the source uses (`startswith`, `in`, `strip`) are modelled on the
underlying character lists.
-/

/-- A Hydra account note, as consumed by `get_notes`:
`{'id': ..., 'subject': ..., 'body': ..., 'isRetired': ...}`. -/
structure Note where
  id : Nat
  subject : String
  body : String
  isRetired : Bool
deriving Repr, DecidableEq

/-- Python `s.startswith(pre)`, on the character lists. -/
def startsWithStr (s pre : String) : Bool :=
  pre.data.isPrefixOf s.data

/-- Python `needle in hay` (substring containment), on the character lists. -/
def isInfixB (needle : List Char) : List Char → Bool
  | [] => needle.isEmpty
  | c :: t => needle.isPrefixOf (c :: t) || isInfixB needle t

/-- Python `needle in hay` for strings. -/
def containsStr (hay needle : String) : Bool :=
  isInfixB needle.data hay.data

/-- Python character-list `strip`: drop whitespace from both ends. -/
def stripChars (l : List Char) : List Char :=
  ((l.dropWhile Char.isWhitespace).reverse.dropWhile Char.isWhitespace).reverse

/-- Python `s.strip()`. -/
def pyStrip (s : String) : String :=
  ⟨stripChars s.data⟩

/-- `subject_prefix = 'Summary (cluster {}): '.format(cluster)` (line 211/280). -/
def subject_pre (cluster : String) : String :=
  "Summary (cluster " ++ cluster ++ "): "

/-- A note counts as the summary for `cluster` iff it is not retired and its
subject starts with the reserved subject prefix (the scan condition of
`get_notes`, lines 214-221). -/
def summaryPred (cluster : String) (n : Note) : Bool :=
  !n.isRetired && startsWithStr n.subject (subject_pre cluster)

/-- A note counts as a related note for `cluster` iff it is not retired, its
subject does not start with the reserved subject prefix, and its subject
contains the cluster id (lines 214-219). -/
def relatedPred (cluster : String) (n : Note) : Bool :=
  !n.isRetired && !startsWithStr n.subject (subject_pre cluster)
    && containsStr n.subject cluster

/-- The scan loop of `get_notes` (lines 213-222): walk the backend's note list
in order; skip retired notes; a non-retired note whose subject starts with the
reserved prefix becomes the summary and stops the scan (`break`); a non-retired
non-matching note whose subject contains the cluster id is appended to
`related_notes`.  Returns `(summary, related_notes)`. -/
def getNotesScan (cluster : String) : List Note → Option Note × List Note
  | [] => (none, [])
  | note :: rest =>
    if note.isRetired then
      getNotesScan cluster rest
    else if !startsWithStr note.subject (subject_pre cluster) then
      if containsStr note.subject cluster then
        let r := getNotesScan cluster rest
        (r.1, note :: r.2)
      else
        getNotesScan cluster rest
    else
      (some note, [])

/-- The attribution footer appended to every summary body
(`handle_set_summary`, line 279). -/
def attributionFooter : String :=
  "\n\nThis summary was created by the cluster-support bot.  Workflow docs in https://github.com/openshift/cluster-support-bot/"

/-- The summary note created by `handle_set_summary` (lines 279-288): the
subject gets the reserved prefix, the body is stripped, gets the attribution
footer appended, and the result is stripped again
(`body = (body.strip() + '...').strip()`). -/
def newSummaryNote (cluster subject body : String) (fresh : Nat) : Note :=
  ⟨fresh, subject_pre cluster ++ subject,
    pyStrip (pyStrip body ++ attributionFooter), false⟩

/-- The backend-visible effect of a successful `handle_set_summary`
(lines 279-290): look up the current summary via the scan, create the new
summary note (the backend appends it with a fresh id), and, only if a prior
summary was found, delete it by id. -/
def set_summary (cluster subject body : String) (notes : List Note)
    (fresh : Nat) : List Note :=
  match (getNotesScan cluster notes).1 with
  | some old =>
    (notes ++ [newSummaryNote cluster subject body fresh]).filter
      (fun n => n.id ≠ old.id)
  | none => notes ++ [newSummaryNote cluster subject body fresh]

/-- The backend states passed through by `handle_set_summary`, in order: the
initial state, the state after `post_account_note`, and (when a prior summary
existed) the state after `delete_account_note`.  A failure between the two
backend steps leaves the backend in one of these states. -/
def set_summary_states (cluster subject body : String) (notes : List Note)
    (fresh : Nat) : List (List Note) :=
  match (getNotesScan cluster notes).1 with
  | some old =>
    [notes, notes ++ [newSummaryNote cluster subject body fresh],
      (notes ++ [newSummaryNote cluster subject body fresh]).filter
        (fun n => n.id ≠ old.id)]
  | none => [notes, notes ++ [newSummaryNote cluster subject body fresh]]

/-- The backend-visible effect of a successful `handle_comment`
(lines 309-316): create one note whose subject is `'cluster {}: {}'`. -/
def add_comment (cluster subject body : String) (notes : List Note)
    (fresh : Nat) : List Note :=
  notes ++ [⟨fresh, "cluster " ++ cluster ++ ": " ++ subject, body, false⟩]

theorem scan_fst_eq_find (cluster : String) (notes : List Note) :
    (getNotesScan cluster notes).1 = notes.find? (summaryPred cluster) := by
  induction notes with
  | nil => rfl
  | cons n rest ih =>
    by_cases hr : n.isRetired
    · simp [getNotesScan, hr, List.find?, summaryPred]
      exact ih
    · by_cases hs : startsWithStr n.subject (subject_pre cluster)
      · simp [getNotesScan, hr, hs, List.find?, summaryPred]
      · by_cases hc : containsStr n.subject cluster
        · simpa [getNotesScan, hr, hs, hc, List.find?, summaryPred] using ih
        · simpa [getNotesScan, hr, hs, hc, List.find?, summaryPred] using ih

theorem scan_append_of_no_summary (cluster : String) (l₁ l₂ : List Note)
    (h : ∀ n ∈ l₁, summaryPred cluster n = false) :
    getNotesScan cluster (l₁ ++ l₂) =
      ((getNotesScan cluster l₂).1,
        l₁.filter (relatedPred cluster) ++ (getNotesScan cluster l₂).2) := by
  induction l₁ with
  | nil => simp
  | cons n rest ih =>
    have hn := h n (List.mem_cons_self n rest)
    have hrest : ∀ m ∈ rest, summaryPred cluster m = false :=
      fun m hm => h m (List.mem_cons_of_mem n hm)
    by_cases hr : n.isRetired
    · have hrel : relatedPred cluster n = false := by
        simp [relatedPred, hr]
      have step : getNotesScan cluster (n :: (rest ++ l₂)) =
          getNotesScan cluster (rest ++ l₂) := by
        simp [getNotesScan, hr]
      rw [List.cons_append, step, ih hrest, List.filter_cons, hrel]
      simp
    · have hs : startsWithStr n.subject (subject_pre cluster) = false := by
        simpa [summaryPred, hr] using hn
      by_cases hc : containsStr n.subject cluster
      · have hrel : relatedPred cluster n = true := by
          simp [relatedPred, hr, hs, hc]
        have step : getNotesScan cluster (n :: (rest ++ l₂)) =
            ((getNotesScan cluster (rest ++ l₂)).1,
              n :: (getNotesScan cluster (rest ++ l₂)).2) := by
          simp [getNotesScan, hr, hs, hc]
        rw [List.cons_append, step, ih hrest, List.filter_cons, hrel]
        simp
      · have hrel : relatedPred cluster n = false := by
          simp [relatedPred, hc]
        have step : getNotesScan cluster (n :: (rest ++ l₂)) =
            getNotesScan cluster (rest ++ l₂) := by
          simp [getNotesScan, hr, hs, hc]
        rw [List.cons_append, step, ih hrest, List.filter_cons, hrel]
        simp

/-- Claim C10: no retired note is returned by the note-resolution scan,
neither as the summary note nor among the related notes. -/
theorem C10_no_retired_in_scan (cluster : String) (notes : List Note) :
    (∀ s, (getNotesScan cluster notes).1 = some s → s.isRetired = false) ∧
    (∀ n ∈ (getNotesScan cluster notes).2, n.isRetired = false) := by
  induction notes with
  | nil =>
    exact ⟨fun s h => by simp [getNotesScan] at h,
           fun n h => by simp [getNotesScan] at h⟩
  | cons m rest ih =>
    by_cases hr : m.isRetired
    · constructor
      · intro s h
        exact ih.1 s (by simpa [getNotesScan, hr] using h)
      · intro n h
        exact ih.2 n (by simpa [getNotesScan, hr] using h)
    · by_cases hs : startsWithStr m.subject (subject_pre cluster)
      · constructor
        · intro s h
          have hm : m = s := by
            simpa [getNotesScan, hr, hs] using h
          subst hm
          simpa using hr
        · intro n h
          simp [getNotesScan, hr, hs] at h
      · by_cases hc : containsStr m.subject cluster
        · constructor
          · intro s h
            exact ih.1 s (by simpa [getNotesScan, hr, hs, hc] using h)
          · intro n h
            have h' : n = m ∨ n ∈ (getNotesScan cluster rest).2 := by
              simpa [getNotesScan, hr, hs, hc] using h
            rcases h' with h' | h'
            · subst h'; simpa using hr
            · exact ih.2 n h'
        · constructor
          · intro s h
            exact ih.1 s (by simpa [getNotesScan, hr, hs, hc] using h)
          · intro n h
            exact ih.2 n (by simpa [getNotesScan, hr, hs, hc] using h)

/-- Witness for C10 at a concrete scan input. -/
theorem C10_witness :
    (Note.mk 2 "Summary (cluster c): s" "b" false).isRetired = false :=
  (C10_no_retired_in_scan "c"
    [⟨1, "Summary (cluster c): s", "b", true⟩,
     ⟨2, "Summary (cluster c): s", "b", false⟩]).1
    ⟨2, "Summary (cluster c): s", "b", false⟩ (by decide)

/-- Claim C4: when the backend list holds two or more non-retired notes whose
subjects start with the reserved prefix for the entity, the scan returns
exactly one summary note, namely the first matching note in backend order
(`List.find?`), and (being a total function) does not raise. -/
theorem C4_first_summary_wins (cluster : String) (notes : List Note)
    (h : 2 ≤ notes.countP (summaryPred cluster)) :
    ∃ s, (getNotesScan cluster notes).1 = some s ∧
      notes.find? (summaryPred cluster) = some s := by
  rw [scan_fst_eq_find]
  cases hf : notes.find? (summaryPred cluster) with
  | some s => exact ⟨s, rfl, rfl⟩
  | none =>
    exfalso
    have hz : notes.countP (summaryPred cluster) = 0 :=
      List.countP_eq_zero.mpr (by
        intro a ha
        exact List.find?_eq_none.mp hf a ha)
    omega

/-- Witness for C4: two duplicate summary notes; the first one is returned. -/
theorem C4_witness :
    ∃ s, (getNotesScan "c"
        [⟨1, "Summary (cluster c): a", "x", false⟩,
         ⟨2, "Summary (cluster c): b", "y", false⟩]).1 = some s ∧
      List.find? (summaryPred "c")
        [⟨1, "Summary (cluster c): a", "x", false⟩,
         ⟨2, "Summary (cluster c): b", "y", false⟩] = some s :=
  C4_first_summary_wins "c"
    [⟨1, "Summary (cluster c): a", "x", false⟩,
     ⟨2, "Summary (cluster c): b", "y", false⟩] (by decide)

/-- Counterexample to Claim C5: a non-retired note whose subject contains the
cluster id and lacks the reserved prefix is NOT always classified as a
related note — the scan stops (`break`) at the first summary note, so a
matching note placed after the summary is never scanned. -/
theorem C5_counterexample :
    relatedPred "c" ⟨2, "cluster c note", "", false⟩ = true ∧
    ⟨2, "cluster c note", "", false⟩ ∉
      (getNotesScan "c"
        [⟨1, "Summary (cluster c): s", "", false⟩,
         ⟨2, "cluster c note", "", false⟩]).2 := by
  decide

/-- Claim C5 (amended): every non-retired note whose subject contains the
entity id and does not start with the reserved prefix, and which occurs
before the first non-retired reserved-prefix note (in particular anywhere,
when no such summary note exists), appears in the related-notes result. -/
theorem C5_related_before_first_summary (cluster : String) (l₁ l₂ : List Note)
    (hno : ∀ m ∈ l₁, summaryPred cluster m = false) (n : Note) (hn : n ∈ l₁)
    (hrel : relatedPred cluster n = true) :
    n ∈ (getNotesScan cluster (l₁ ++ l₂)).2 := by
  rw [scan_append_of_no_summary cluster l₁ l₂ hno]
  exact List.mem_append_left _ (List.mem_filter.mpr ⟨hn, hrel⟩)

/-- Witness for amended C5: a related note before the summary is returned. -/
theorem C5_witness :
    (⟨1, "cluster c note", "", false⟩ : Note) ∈
      (getNotesScan "c"
        ([⟨1, "cluster c note", "", false⟩] ++
         [⟨2, "Summary (cluster c): s", "", false⟩])).2 :=
  C5_related_before_first_summary "c"
    [⟨1, "cluster c note", "", false⟩]
    [⟨2, "Summary (cluster c): s", "", false⟩]
    (by decide) ⟨1, "cluster c note", "", false⟩ (by decide) (by decide)

theorem isPrefixOf_append_self (a b : List Char) :
    a.isPrefixOf (a ++ b) = true := by
  induction a with
  | nil => cases b <;> rfl
  | cons c t ih => simp [List.isPrefixOf, ih]

theorem startsWith_reserved (E S : String) :
    startsWithStr (subject_pre E ++ S) (subject_pre E) = true := by
  simp [startsWithStr, String.data_append, isPrefixOf_append_self]

theorem summaryPred_newSummaryNote (E S body : String) (fresh : Nat) :
    summaryPred E (newSummaryNote E S body fresh) = true := by
  simp [summaryPred, newSummaryNote, startsWith_reserved]

theorem dropWhile_eq_self_of_stripChars (l : List Char)
    (h : stripChars l = l) :
    List.dropWhile Char.isWhitespace l = l := by
  have hsuf : List.dropWhile Char.isWhitespace l <:+ l :=
    List.dropWhile_suffix _
  apply hsuf.eq_of_length
  have h1 : (stripChars l).length ≤
      (List.dropWhile Char.isWhitespace l).length := by
    unfold stripChars
    rw [List.length_reverse]
    calc (List.dropWhile Char.isWhitespace
            (l.dropWhile Char.isWhitespace).reverse).length
        ≤ (l.dropWhile Char.isWhitespace).reverse.length :=
          (List.dropWhile_suffix _).length_le
      _ = (l.dropWhile Char.isWhitespace).length := List.length_reverse _
  have h2 : (List.dropWhile Char.isWhitespace l).length ≤ l.length :=
    hsuf.length_le
  rw [h] at h1
  omega

theorem head_not_space_of_stripChars (c : Char) (t : List Char)
    (h : stripChars (c :: t) = c :: t) : c.isWhitespace = false := by
  have hdrop := dropWhile_eq_self_of_stripChars _ h
  by_contra hc
  have hc' : c.isWhitespace = true := by
    simpa using hc
  rw [List.dropWhile_cons, if_pos hc'] at hdrop
  have hlen : (List.dropWhile Char.isWhitespace t).length ≤ t.length :=
    (List.dropWhile_suffix _).length_le
  rw [hdrop] at hlen
  simp at hlen

theorem stripChars_append_eq_self (c d : Char) (t f : List Char)
    (hc : c.isWhitespace = false) (hd : d.isWhitespace = false)
    (hf : f.reverse.head? = some d) :
    stripChars ((c :: t) ++ f) = (c :: t) ++ f := by
  cases hrev : f.reverse with
  | nil => rw [hrev] at hf; cases hf
  | cons d' fr =>
    rw [hrev] at hf
    have hdd : d' = d := by
      simpa using hf
    subst hdd
    have h1 : List.dropWhile Char.isWhitespace ((c :: t) ++ f) =
        (c :: t) ++ f := by
      rw [List.cons_append, List.dropWhile_cons, if_neg (by simp [hc])]
    have h2 : List.dropWhile Char.isWhitespace (((c :: t) ++ f).reverse) =
        ((c :: t) ++ f).reverse := by
      rw [List.reverse_append, hrev, List.cons_append, List.dropWhile_cons,
        if_neg (by simp [hd])]
    unfold stripChars
    rw [h1, h2, List.reverse_reverse]

theorem footer_head_of_reverse :
    attributionFooter.data.reverse.head? = some '/' := by decide

theorem pyStrip_append_footer (B : String) (hB : pyStrip B = B)
    (hBne : B ≠ "") :
    pyStrip (B ++ attributionFooter) = B ++ attributionFooter := by
  cases hdata : B.data with
  | nil =>
    exfalso
    exact hBne (String.ext (by simp [hdata]))
  | cons c t =>
    have hstrip : stripChars B.data = B.data := congrArg String.data hB
    rw [hdata] at hstrip
    have hc : c.isWhitespace = false := head_not_space_of_stripChars c t hstrip
    apply String.ext
    show stripChars (B ++ attributionFooter).data =
      (B ++ attributionFooter).data
    rw [String.data_append, hdata]
    exact stripChars_append_eq_self c '/' t attributionFooter.data hc
      (by decide) footer_head_of_reverse

theorem scan_singleton_new (E S B : String) (fresh : Nat) :
    (getNotesScan E [newSummaryNote E S B fresh]).1 =
      some (newSummaryNote E S B fresh) := by
  have hsw : startsWithStr (newSummaryNote E S B fresh).subject
      (subject_pre E) = true := startsWith_reserved E S
  simp [getNotesScan, newSummaryNote] at hsw ⊢
  simp [hsw]

/-- Claim C1: starting from a backend state satisfying the single-summary
invariant, a successful `set_summary(E, S, B)` followed by the note scan
yields exactly one summary note, whose subject is `"Summary (cluster E): S"`
and whose body is `B` followed by the attribution footer (for a body `B`
that is already stripped and non-empty, as `strip` makes the stored body). -/
theorem C1_round_trip (E S B : String) (notes : List Note) (fresh : Nat)
    (hinv : notes.countP (summaryPred E) ≤ 1)
    (hfresh : ∀ n ∈ notes, n.id ≠ fresh)
    (hB : pyStrip B = B) (hBne : B ≠ "") :
    ∃ nn, (getNotesScan E (set_summary E S B notes fresh)).1 = some nn ∧
      nn.subject = subject_pre E ++ S ∧
      nn.body = B ++ attributionFooter ∧
      (set_summary E S B notes fresh).countP (summaryPred E) = 1 := by
  have hbody : (newSummaryNote E S B fresh).body = B ++ attributionFooter := by
    show pyStrip (pyStrip B ++ attributionFooter) = B ++ attributionFooter
    rw [hB]
    exact pyStrip_append_footer B hB hBne
  have hpred := summaryPred_newSummaryNote E S B fresh
  have hone := scan_singleton_new E S B fresh
  cases hprior : (getNotesScan E notes).1 with
  | none =>
    have hfind : notes.find? (summaryPred E) = none := by
      rw [← scan_fst_eq_find]; exact hprior
    have hno : ∀ m ∈ notes, summaryPred E m = false := by
      intro m hm
      simpa using List.find?_eq_none.mp hfind m hm
    have hset : set_summary E S B notes fresh =
        notes ++ [newSummaryNote E S B fresh] := by
      unfold set_summary; rw [hprior]
    have hscan := scan_append_of_no_summary E notes
      [newSummaryNote E S B fresh] hno
    refine ⟨newSummaryNote E S B fresh, ?_, rfl, hbody, ?_⟩
    · rw [hset, hscan]
      simpa using hone
    · rw [hset, List.countP_append]
      have h0 : notes.countP (summaryPred E) = 0 :=
        List.countP_eq_zero.mpr (fun a ha => by simp [hno a ha])
      rw [h0]
      simp [List.countP_cons, hpred]
  | some old =>
    have hfind : notes.find? (summaryPred E) = some old := by
      rw [← scan_fst_eq_find]; exact hprior
    have hmem := List.mem_of_find?_eq_some hfind
    have holdpred : summaryPred E old = true := List.find?_some hfind
    have hcount1 : notes.countP (summaryPred E) = 1 := by
      have hpos : 0 < notes.countP (summaryPred E) :=
        List.countP_pos_iff.mpr ⟨old, hmem, holdpred⟩
      omega
    have hfilter : notes.filter (summaryPred E) = [old] := by
      have hlen : (notes.filter (summaryPred E)).length = 1 := by
        rw [← List.countP_eq_length_filter]; exact hcount1
      obtain ⟨a, ha⟩ := List.length_eq_one.mp hlen
      have hmf : old ∈ notes.filter (summaryPred E) :=
        List.mem_filter.mpr ⟨hmem, holdpred⟩
      rw [ha] at hmf
      have haold : old = a := by simpa using hmf
      rw [ha, ← haold]
    have huniq : ∀ m ∈ notes, summaryPred E m = true → m = old := by
      intro m hm hp
      have hmf : m ∈ notes.filter (summaryPred E) :=
        List.mem_filter.mpr ⟨hm, hp⟩
      rw [hfilter] at hmf
      simpa using hmf
    have hid : old.id ≠ fresh := hfresh old hmem
    have hsingle : [newSummaryNote E S B fresh].filter
        (fun n => n.id ≠ old.id) = [newSummaryNote E S B fresh] := by
      simp [List.filter_cons, newSummaryNote]
      exact fun h => hid h.symm
    have hset : set_summary E S B notes fresh =
        notes.filter (fun n => n.id ≠ old.id) ++
          [newSummaryNote E S B fresh] := by
      unfold set_summary
      rw [hprior]
      show (notes ++ [newSummaryNote E S B fresh]).filter
          (fun n => n.id ≠ old.id) = _
      rw [List.filter_append, hsingle]
    have hno : ∀ m ∈ notes.filter (fun n => n.id ≠ old.id),
        summaryPred E m = false := by
      intro m hm
      obtain ⟨hm1, hm2⟩ := List.mem_filter.mp hm
      by_contra hp
      have hp' : summaryPred E m = true := by simpa using hp
      have heq := huniq m hm1 hp'
      subst heq
      simp at hm2
    have hscan := scan_append_of_no_summary E
      (notes.filter (fun n => n.id ≠ old.id))
      [newSummaryNote E S B fresh] hno
    have h0 : (notes.filter (fun n => n.id ≠ old.id)).countP
        (summaryPred E) = 0 :=
      List.countP_eq_zero.mpr (fun a ha => by simp [hno a ha])
    refine ⟨newSummaryNote E S B fresh, ?_, rfl, hbody, ?_⟩
    · rw [hset, hscan]
      simpa using hone
    · rw [hset, List.countP_append, h0]
      simp [List.countP_cons, hpred]

/-- Witness for C1: set the summary on an empty backend. -/
theorem C1_witness :
    ∃ nn, (getNotesScan "abc" (set_summary "abc" "up" "fine" [] 0)).1 =
        some nn ∧
      nn.subject = subject_pre "abc" ++ "up" ∧
      nn.body = "fine" ++ attributionFooter ∧
      (set_summary "abc" "up" "fine" [] 0).countP (summaryPred "abc") = 1 :=
  C1_round_trip "abc" "up" "fine" [] 0 (by decide)
    (by intro n hn; cases hn) (by decide) (by decide)

/-- Claim C2: `handle_set_summary` creates the new summary note before
deleting the old one, so when the entity has at least one summary note
before the call, every intermediate backend state of the call — including
the state reached if a failure occurs between the two backend steps — still
has at least one summary note. -/
theorem C2_never_zero_summaries (cluster subject body : String)
    (notes : List Note) (fresh : Nat)
    (h1 : 1 ≤ notes.countP (summaryPred cluster))
    (hfresh : ∀ n ∈ notes, n.id ≠ fresh) :
    ∀ st ∈ set_summary_states cluster subject body notes fresh,
      1 ≤ st.countP (summaryPred cluster) := by
  intro st hst
  have hpred := summaryPred_newSummaryNote cluster subject body fresh
  cases hprior : (getNotesScan cluster notes).1 with
  | none =>
    have heq : set_summary_states cluster subject body notes fresh =
        [notes, notes ++ [newSummaryNote cluster subject body fresh]] := by
      unfold set_summary_states; rw [hprior]
    rw [heq] at hst
    simp only [List.mem_cons, List.not_mem_nil, or_false] at hst
    rcases hst with rfl | rfl
    · exact h1
    · rw [List.countP_append]; omega
  | some old =>
    have heq : set_summary_states cluster subject body notes fresh =
        [notes, notes ++ [newSummaryNote cluster subject body fresh],
          (notes ++ [newSummaryNote cluster subject body fresh]).filter
            (fun n => n.id ≠ old.id)] := by
      unfold set_summary_states; rw [hprior]
    rw [heq] at hst
    simp only [List.mem_cons, List.not_mem_nil, or_false] at hst
    rcases hst with rfl | rfl | rfl
    · exact h1
    · rw [List.countP_append]; omega
    · have hfind : notes.find? (summaryPred cluster) = some old := by
        rw [← scan_fst_eq_find]; exact hprior
      have hmem := List.mem_of_find?_eq_some hfind
      have hid : old.id ≠ fresh := hfresh old hmem
      have hmemf : newSummaryNote cluster subject body fresh ∈
          (notes ++ [newSummaryNote cluster subject body fresh]).filter
            (fun n => n.id ≠ old.id) := by
        apply List.mem_filter.mpr
        refine ⟨by simp, ?_⟩
        simp [newSummaryNote]
        exact fun h => hid h.symm
      have hpos := List.countP_pos_iff.mpr
        ⟨newSummaryNote cluster subject body fresh, hmemf, hpred⟩
      omega

/-- Witness for C2 at a concrete replacement. -/
theorem C2_witness :
    1 ≤ (([⟨1, "Summary (cluster c): a", "x", false⟩] : List Note) ++
        [newSummaryNote "c" "s" "b" 2]).countP (summaryPred "c") :=
  C2_never_zero_summaries "c" "s" "b"
    [⟨1, "Summary (cluster c): a", "x", false⟩] 2 (by decide) (by decide)
    ([⟨1, "Summary (cluster c): a", "x", false⟩] ++
      [newSummaryNote "c" "s" "b" 2]) (by decide)

theorem isPrefixOf_cons_ne (a b : Char) (x y : List Char)
    (h : (a == b) = false) :
    (a :: x).isPrefixOf (b :: y) = false := by
  simp [List.isPrefixOf, h]

theorem comment_not_summary (cluster subject : String) :
    startsWithStr ("cluster " ++ cluster ++ ": " ++ subject)
      (subject_pre cluster) = false := by
  rw [startsWithStr, subject_pre]
  simp only [String.data_append, List.cons_append]
  exact isPrefixOf_cons_ne _ _ _ _ (by decide)

theorem scan_fst_append_non_summary (cluster : String) (notes : List Note)
    (n : Note) (hn : summaryPred cluster n = false) :
    (getNotesScan cluster (notes ++ [n])).1 =
      (getNotesScan cluster notes).1 := by
  rw [scan_fst_eq_find, scan_fst_eq_find, List.find?_append]
  cases hf : notes.find? (summaryPred cluster) with
  | some s => rfl
  | none => simp [List.find?, hn]

/-- Claim C6: `add_comment` appends exactly one new note, whose subject
starts with the non-reserved `"cluster <id>: "` prefix, and deletes or
modifies no existing note; the summary resolved by the scan is unchanged. -/
theorem C6_add_comment_frame (cluster subject body : String)
    (notes : List Note) (fresh : Nat) :
    add_comment cluster subject body notes fresh =
      notes ++
        [⟨fresh, "cluster " ++ cluster ++ ": " ++ subject, body, false⟩] ∧
    startsWithStr ("cluster " ++ cluster ++ ": " ++ subject)
      ("cluster " ++ cluster ++ ": ") = true ∧
    (getNotesScan cluster (add_comment cluster subject body notes fresh)).1 =
      (getNotesScan cluster notes).1 := by
  refine ⟨rfl, ?_, ?_⟩
  · simp [startsWithStr, String.data_append, isPrefixOf_append_self]
  · apply scan_fst_append_non_summary
    simp [summaryPred, comment_not_summary]

/-- Counterexample to Claim C1 as stated (quantified over every subject and
body and silent on the initial state): (i) for the body `" x"`, the stored
body is the stripped `"x"` plus the footer, not `" x"` plus the footer;
(ii) when the initial state already violates the single-summary invariant,
the resolved summary after `set_summary` is the surviving older duplicate,
not the new note. -/
theorem C1_counterexample :
    ((getNotesScan "c" (set_summary "c" "s" " x" [] 0)).1.isSome = true ∧
      (getNotesScan "c" (set_summary "c" "s" " x" [] 0)).1.map Note.body ≠
        some (" x" ++ attributionFooter)) ∧
    ((getNotesScan "c" (set_summary "c" "s" "b"
        [⟨0, "Summary (cluster c): a", "", false⟩,
         ⟨1, "Summary (cluster c): b", "", false⟩] 2)).1.map Note.subject ≠
      some (subject_pre "c" ++ "s")) := by
  decide

/-- The dedup gate of `_handle_message` (lines 78-85), with timestamps in an
integer time domain (seconds): if the event timestamp is already in
`recent_events`, return `false` and leave the set unchanged (the message is
ignored); otherwise add the timestamp, then rebuild the set keeping only
timestamps strictly newer than `now - 3600`, and return `true`. -/
def admitEvent (recent : List ℤ) (ts now : ℤ) : Bool × List ℤ :=
  if ts ∈ recent then (false, recent)
  else (true, (ts :: recent).filter (fun t => now - 3600 < t))

theorem admitEvent_of_mem {recent : List ℤ} {ts now : ℤ} (h : ts ∈ recent) :
    admitEvent recent ts now = (false, recent) := by
  unfold admitEvent
  rw [if_pos h]

theorem admitEvent_of_not_mem {recent : List ℤ} {ts now : ℤ} (h : ts ∉ recent) :
    admitEvent recent ts now =
      (true, (ts :: recent).filter (fun t => now - 3600 < t)) := by
  unfold admitEvent
  rw [if_neg h]

/-- Counterexample to Claim C3 as stated: a timestamp admitted once is
still refused two hours later when no other event has been admitted in
between — the membership check (line 79) fires before any pruning, and
pruning only happens when a new timestamp is admitted. -/
theorem C3_counterexample :
    (admitEvent [] 0 0).1 = true ∧
    (admitEvent (admitEvent [] 0 0).2 0 7200).1 = false := by
  decide

/-- Claim C3 (amended): an admitted timestamp is refused on every repeated
call while it remains in the window set (in particular immediately, within
the 1-hour horizon), with no other effect; admission inserts the timestamp
and prunes every entry older than `now - 3600`; and once the horizon has
elapsed AND a subsequent admission of a new timestamp has pruned it, the
original timestamp is admitted again. -/
theorem C3_dedup_window (recent : List ℤ) (t now₁ : ℤ)
    (hnew : t ∉ recent) (hin : now₁ - 3600 < t) :
    (admitEvent recent t now₁).1 = true ∧
    t ∈ (admitEvent recent t now₁).2 ∧
    (∀ x ∈ (admitEvent recent t now₁).2, now₁ - 3600 < x) ∧
    (∀ now₂, admitEvent (admitEvent recent t now₁).2 t now₂ =
      (false, (admitEvent recent t now₁).2)) ∧
    (∀ t' now₃, t' ∉ (admitEvent recent t now₁).2 → t ≤ now₃ - 3600 →
      (admitEvent (admitEvent recent t now₁).2 t' now₃).1 = true ∧
      t ∉ (admitEvent (admitEvent recent t now₁).2 t' now₃).2 ∧
      ∀ now₄, (admitEvent (admitEvent (admitEvent recent t now₁).2 t' now₃).2 t now₄).1 =
        true) := by
  have hr₁ : (admitEvent recent t now₁).2 =
      (t :: recent).filter (fun x => decide (now₁ - 3600 < x)) := by
    rw [admitEvent_of_not_mem hnew]
  have hmem : t ∈ (admitEvent recent t now₁).2 := by
    rw [hr₁]
    exact List.mem_filter.mpr ⟨List.mem_cons_self t recent, by simpa using hin⟩
  refine ⟨by rw [admitEvent_of_not_mem hnew], hmem, ?_, ?_, ?_⟩
  · intro x hx
    rw [hr₁] at hx
    simpa using (List.mem_filter.mp hx).2
  · intro now₂
    rw [admitEvent_of_mem hmem]
  · intro t' now₃ ht' hold
    have hstep : admitEvent (admitEvent recent t now₁).2 t' now₃ =
        (true, (t' :: (admitEvent recent t now₁).2).filter
          (fun x => decide (now₃ - 3600 < x))) := by
      rw [admitEvent_of_not_mem ht']
    have hgone : t ∉ (admitEvent (admitEvent recent t now₁).2 t' now₃).2 := by
      rw [hstep]
      intro hmemt
      have hlt := (List.mem_filter.mp hmemt).2
      simp only [decide_eq_true_eq] at hlt
      omega
    refine ⟨by rw [hstep], hgone, ?_⟩
    intro now₄
    rw [admitEvent_of_not_mem hgone]

/-- Witness for amended C3: admitEvent at t=0, refuse the repeat at clock 7200,
prune via an admission of t=4000, then re-admitEvent t=0 at clock 9000. -/
theorem C3_witness :
    (admitEvent [] 0 0).1 = true ∧
    admitEvent (admitEvent [] 0 0).2 0 7200 = (false, (admitEvent [] 0 0).2) ∧
    (admitEvent (admitEvent (admitEvent [] 0 0).2 4000 7200).2 0 9000).1 = true := by
  have h := C3_dedup_window [] 0 0 (by decide) (by decide)
  exact ⟨h.1, h.2.2.2.1 7200,
    (h.2.2.2.2 4000 7200 (by decide) (by decide)).2.2 9000⟩

/-- `handle_message` (lines 53-58): run `_handle_message` on the payload;
a normal return produces no log line, a raised exception is caught and
logged (`logger.debug('uncaught Exception in handle_message: ...')`).
The result is the log lines emitted; the wrapper itself never raises, which
the `Except` result type makes explicit. -/
def handle_message (inner : Payload → Except String Unit)
    (payload : Payload) : Except String (List String) :=
  match inner payload with
  | .ok _ => .ok []
  | .error e => .ok ["uncaught Exception in handle_message: " ++ e]

/-- The event-delivery loop of the RTM client: deliver each event to the
handler in order; an exception escaping the handler aborts the remainder of
the loop. -/
def deliverAll (handler : Payload → Except String (List String)) :
    List Payload → Except String (List (List String))
  | [] => .ok []
  | ev :: rest =>
    match handler ev with
    | .error e => .error e
    | .ok logs =>
      match deliverAll handler rest with
      | .error e => .error e
      | .ok more => .ok (logs :: more)

/-- Claim C7: whatever exception `_handle_message` raises on whatever
payload, `handle_message` catches and logs it, and the delivery loop
processes every subsequent event: the loop never sees an exception and
produces one log record per event. -/
theorem C7_exceptions_swallowed (Payload : Type)
    (inner : Payload → Except String Unit) (events : List Payload) :
    (∀ payload e, inner payload = .error e →
      handle_message inner payload =
        .ok ["uncaught Exception in handle_message: " ++ e]) ∧
    ∃ logs, deliverAll (handle_message inner) events = .ok logs ∧
      logs.length = events.length := by
  constructor
  · intro payload e h
    simp [handle_message, h]
  · induction events with
    | nil => exact ⟨[], rfl, rfl⟩
    | cons ev rest ih =>
      obtain ⟨logs, hl, hlen⟩ := ih
      cases hev : inner ev with
      | ok u =>
        refine ⟨[] :: logs, ?_, by simp [hlen]⟩
        simp [deliverAll, handle_message, hev, hl]
      | error e =>
        refine ⟨["uncaught Exception in handle_message: " ++ e] :: logs,
          ?_, by simp [hlen]⟩
        simp [deliverAll, handle_message, hev, hl]

/-- Witness for C7: a handler that always raises still lets three events
through the loop, each logged. -/
theorem C7_witness :
    handle_message (fun _ : Nat => Except.error "boom") 0 =
      .ok ["uncaught Exception in handle_message: " ++ "boom"] ∧
    ∃ logs, deliverAll (handle_message (fun _ : Nat => Except.error "boom"))
      [1, 2, 3] = .ok logs ∧ logs.length = 3 := by
  have h := C7_exceptions_swallowed Nat (fun _ => Except.error "boom")
    [1, 2, 3]
  exact ⟨h.1 0 "boom" rfl, h.2⟩

/-- A parsed command of the fixed registry (lines 325-344): `help`,
`summary <ID>`, `set-summary <ID>`, `detail <ID>`, `comment <ID>`. -/
inductive Cmd
  | help
  | summary (cluster : String)
  | setSummary (cluster : String)
  | detail (cluster : String)
  | comment (cluster : String)
deriving Repr, DecidableEq

/-- Outcome of `parser.parse_args(user_args)` under
`ErrorRaisingArgumentParser` (lines 42-50, 89-94): a parsed namespace
(`parsed none` when no subcommand token was given, so the namespace carries
no handler), a raised `HelpRequest`, or a raised `ValueError` carrying the
argparse error message. -/
inductive ParseResult
  | parsed (cmd : Option Cmd)
  | helpRequest
  | parseErr (message : String)
deriving Repr, DecidableEq

/-- The registered subcommand names (lines 331-344). -/
def knownSub (tok : String) : Bool :=
  tok = "help" || tok = "summary" || tok = "set-summary" ||
    tok = "detail" || tok = "comment"

/-- Build the command for a registered subcommand with its ID argument. -/
def mkCmd (tok c : String) : Cmd :=
  if tok = "summary" then .summary c
  else if tok = "set-summary" then .setSummary c
  else if tok = "detail" then .detail c
  else .comment c

/-- Model of `parser.parse_args` for this registry: an empty argument list
parses to a namespace with no handler; `-h`/`--help` raises `HelpRequest`
via the overridden `print_help`; an unregistered first token or a wrong
number of positional arguments raises `ValueError` via the overridden
`error`; otherwise the subcommand with its ID argument is returned. -/
def parse_args_model : List String → ParseResult
  | [] => .parsed none
  | tok :: rest =>
    if tok = "-h" || tok = "--help" then .helpRequest
    else if !(knownSub tok) then
      .parseErr ("argument {command}: invalid choice: " ++ tok)
    else if rest.contains "-h" || rest.contains "--help" then .helpRequest
    else if tok = "help" then
      if rest.isEmpty then .parsed (some .help)
      else .parseErr "unrecognized arguments"
    else
      match rest with
      | [] => .parseErr "the following arguments are required: ID"
      | [c] => .parsed (some (mkCmd tok c))
      | _ => .parseErr "unrecognized arguments"

/-- Python `line.split('\n', 1)` on character lists: the first line and the
remainder after the first newline. -/
def splitFirstLine : List Char → List Char × List Char
  | [] => ([], [])
  | c :: t =>
    if c = '\n' then ([], t)
    else
      let r := splitFirstLine t
      (c :: r.1, r.2)

/-- Helper for `tokenizeWs`: `acc` holds the characters of the token being
read, in reverse. -/
def tokenizeWsAux : List Char → List Char → List (List Char)
  | [], acc => if acc.isEmpty then [] else [acc.reverse]
  | c :: t, acc =>
    if c.isWhitespace then
      if acc.isEmpty then tokenizeWsAux t []
      else acc.reverse :: tokenizeWsAux t []
    else tokenizeWsAux t (c :: acc)

/-- Python `line.split()` on character lists: whitespace-run tokenization
with no empty tokens. -/
def tokenizeWs (l : List Char) : List (List Char) :=
  tokenizeWsAux l []

/-- Lines 87-88: `user_arg_line, body = (text.strip()+'\n').split('\n', 1)`
then `user_args = user_arg_line.split()[1:]` (the mention token dropped). -/
def user_args_of (text : String) : List String :=
  ((tokenizeWs (splitFirstLine (pyStrip text ++ "\n").data).1).map
    (fun l => (⟨l⟩ : String))).drop 1

/-- Parse the command line of a mention-prefixed message (lines 87-94). -/
def parse_message (text : String) : ParseResult :=
  parse_args_model (user_args_of text)

/-- The reply posted for each parse outcome (lines 91-106): a `HelpRequest`
posts usage text (`handle_help`), a `ValueError` posts its message
(`handle_parse_args_error`), a parsed command runs its handler — every
registered handler posts a reply both on success and on the `ValueError`
path — and a namespace with no handler reaches `args.func`, raises
`AttributeError`, and is swallowed by `handle_message` with no reply. -/
def dispatch_reply (runHandler : Cmd → String) :
    ParseResult → Option String
  | .helpRequest => some "usage: Cluster support bot"
  | .parseErr msg => some msg
  | .parsed none => none
  | .parsed (some c) => some (runHandler c)

theorem parse_args_model_cons_ne (tok : String) (rest : List String) :
    parse_args_model (tok :: rest) ≠ .parsed none := by
  simp only [parse_args_model]
  repeat' split
  all_goals simp

theorem parse_args_model_parsed_none_iff (toks : List String) :
    parse_args_model toks = .parsed none ↔ toks = [] := by
  cases toks with
  | nil => simp [parse_args_model]
  | cons tok rest =>
    constructor
    · intro h
      exact absurd h (parse_args_model_cons_ne tok rest)
    · intro h
      cases h

/-- Counterexample to Claim C8 as stated: the mention-prefixed text
`"<@U123> "` (a mention with an empty command line) parses successfully to
a namespace with no handler, and no chat reply is posted — `args.func`
raises `AttributeError`, which the top-level handler swallows silently. -/
theorem C8_counterexample :
    startsWithStr "<@U123> " "<@U123> " = true ∧
    parse_message "<@U123> " = ParseResult.parsed none ∧
    dispatch_reply (fun _ => "reply") (parse_message "<@U123> ") = none := by
  decide

/-- Claim C8 (amended): parsing any mention-prefixed text is total, ending
in one of {ParsedCommand, HelpRequest, ParseError} (or a handler-less parse
of the empty command line), so no parser failure terminates the process;
and a chat reply is posted for every outcome except exactly the empty
command line, which is dropped with no reply. -/
theorem C8_parse_total_reply (runHandler : Cmd → String) (text : String) :
    ((∃ c, parse_message text = .parsed (some c)) ∨
      parse_message text = .helpRequest ∨
      (∃ m, parse_message text = .parseErr m) ∨
      parse_message text = .parsed none) ∧
    (dispatch_reply runHandler (parse_message text) = none ↔
      user_args_of text = []) := by
  constructor
  · cases h : parse_message text with
    | parsed c =>
      cases c with
      | none => exact Or.inr (Or.inr (Or.inr rfl))
      | some c => exact Or.inl ⟨c, rfl⟩
    | helpRequest => exact Or.inr (Or.inl rfl)
    | parseErr m => exact Or.inr (Or.inr (Or.inl ⟨m, rfl⟩))
  · constructor
    · intro h
      cases hp : parse_message text with
      | parsed c =>
        cases c with
        | none => exact (parse_args_model_parsed_none_iff _).mp hp
        | some c => rw [hp] at h; simp [dispatch_reply] at h
      | helpRequest => rw [hp] at h; simp [dispatch_reply] at h
      | parseErr m => rw [hp] at h; simp [dispatch_reply] at h
    · intro h
      have hpm : parse_message text = .parsed none := by
        unfold parse_message
        rw [h]
        rfl
      rw [hpm]
      rfl

/-- Witness for amended C8: a well-formed command gets a reply. -/
theorem C8_witness :
    dispatch_reply (fun _ => "reply")
      (parse_message "<@U123> summary abc") ≠ none := by
  have h := (C8_parse_total_reply (fun _ => "reply")
    "<@U123> summary abc").2
  intro hnone
  have hempty := h.mp hnone
  have hargs : user_args_of "<@U123> summary abc" = ["summary", "abc"] := by
    decide
  rw [hargs] at hempty
  cases hempty

/-- The request-scoped state a write handler touches: the backend note list
and the `comment_counter` values, keyed by cluster id label. -/
structure OpState where
  notes : List Note
  counts : String → Nat

/-- `comment_counter.labels(cluster).inc()` (lines 291/316). -/
def bump (c : String) (f : String → Nat) : String → Nat :=
  fun x => if x = c then f x + 1 else f x

/-- The externally visible steps of a write handler, in execution order:
backend note creation, backend note deletion, counter increment, and the
chat reply (error reply on the `ValueError` path, confirmation otherwise). -/
inductive BotEv
  | postNote
  | deleteNote
  | incCount
  | errReply
  | okReply
deriving Repr, DecidableEq

/-- `handle_set_summary` (lines 270-297) with its three fallible
collaborator calls made explicit: the telemetry lookup (line 282), the note
creation (line 284) and the note deletion (line 290) each either succeed or
raise `ValueError`; a raise skips the rest of the `try` block — in
particular the counter increment on line 291, which runs only after both
backend writes — and posts the error reply.  Returns the final state, the
ordered event trace, and whether the operation succeeded. -/
def set_summary_run (failLookup failPost failDelete : Bool)
    (cluster subject body : String) (st : OpState) (fresh : Nat) :
    OpState × List BotEv × Bool :=
  if failLookup then (st, [.errReply], false)
  else if failPost then (st, [.errReply], false)
  else
    match (getNotesScan cluster st.notes).1 with
    | some old =>
      if failDelete then
        (⟨st.notes ++ [newSummaryNote cluster subject body fresh],
          st.counts⟩, [.postNote, .errReply], false)
      else
        (⟨(st.notes ++ [newSummaryNote cluster subject body fresh]).filter
            (fun n => n.id ≠ old.id), bump cluster st.counts⟩,
          [.postNote, .deleteNote, .incCount, .okReply], true)
    | none =>
      (⟨st.notes ++ [newSummaryNote cluster subject body fresh],
        bump cluster st.counts⟩, [.postNote, .incCount, .okReply], true)

/-- `handle_comment` (lines 300-322), same conventions: the telemetry
lookup (line 310) and the note creation (line 311) may raise; the counter
increment on line 316 runs only after the backend write. -/
def add_comment_run (failLookup failPost : Bool)
    (cluster subject body : String) (st : OpState) (fresh : Nat) :
    OpState × List BotEv × Bool :=
  if failLookup then (st, [.errReply], false)
  else if failPost then (st, [.errReply], false)
  else
    (⟨add_comment cluster subject body st.notes fresh,
      bump cluster st.counts⟩, [.postNote, .incCount, .okReply], true)

/-- What Claim C9 asserts of one run's result `(state', trace, ok)` against
the initial counters: on success the cluster's counter grew by exactly one
and no other counter moved, the trace holds exactly one increment event and
it comes after the backend write; on failure every counter is unchanged and
no increment event was emitted. -/
def counterSpec (st : OpState) (cluster : String)
    (r : OpState × List BotEv × Bool) : Prop :=
  (r.2.2 = true →
    r.1.counts cluster = st.counts cluster + 1 ∧
    (∀ x, x ≠ cluster → r.1.counts x = st.counts x) ∧
    r.2.1.count BotEv.incCount = 1 ∧
    ∃ pre post, r.2.1 = pre ++ BotEv.incCount :: post ∧
      BotEv.postNote ∈ pre) ∧
  (r.2.2 = false →
    (∀ x, r.1.counts x = st.counts x) ∧
    r.2.1.count BotEv.incCount = 0)

/-- Claim C9: for both write handlers, under every combination of
collaborator failures, the comment counter for the entity id is incremented
exactly once by a successful operation — and only after the backend write —
while every failing run leaves all counters unchanged. -/
theorem C9_comment_counter (failLookup failPost failDelete : Bool)
    (cluster subject body : String) (st : OpState) (fresh : Nat) :
    counterSpec st cluster
      (set_summary_run failLookup failPost failDelete cluster subject body
        st fresh) ∧
    counterSpec st cluster
      (add_comment_run failLookup failPost cluster subject body st fresh) := by
  constructor
  · unfold counterSpec set_summary_run
    cases failLookup with
    | true => simp
    | false =>
      cases failPost with
      | true => simp
      | false =>
        cases hprior : (getNotesScan cluster st.notes).1 with
        | some old =>
          cases failDelete with
          | true => simp
          | false =>
            simp only [Bool.false_eq_true, if_false]
            refine ⟨fun _ => ⟨by simp [bump], fun x hx => by simp [bump, hx],
              by decide, [.postNote, .deleteNote], [.okReply], rfl,
              by decide⟩, fun h => by cases h⟩
        | none =>
          simp only [Bool.false_eq_true, if_false]
          refine ⟨fun _ => ⟨by simp [bump], fun x hx => by simp [bump, hx],
            by decide, [.postNote], [.okReply], rfl, by decide⟩,
            fun h => by cases h⟩
  · unfold counterSpec add_comment_run
    cases failLookup with
    | true => simp
    | false =>
      cases failPost with
      | true => simp
      | false =>
        simp only [Bool.false_eq_true, if_false]
        refine ⟨fun _ => ⟨by simp [bump], fun x hx => by simp [bump, hx],
          by decide, [.postNote], [.okReply], rfl, by decide⟩,
          fun h => by cases h⟩

/-- Witness for C9: a successful comment on an empty backend bumps the
counter from 0 to 1. -/
theorem C9_witness :
    (add_comment_run false false "c" "s" "b" ⟨[], fun _ => 0⟩ 0).1.counts
      "c" = 0 + 1 := by
  have h := (C9_comment_counter false false false "c" "s" "b"
    ⟨[], fun _ => 0⟩ 0).2
  exact (h.1 rfl).1
